import Mathlib

/-!
Verification of the bencher micro-benchmarking library against its
specification.  C++ doubles are modelled as rationals (`ℚ`); all divisions
in the modelled code paths are guarded in the source, so total rational
division is faithful on those paths.  `std::vector` is modelled as `List`,
`std::optional` as `Option`, and functions that throw are modelled with
`Except`.  The core header `bencher/bencher.hpp` is not part of the
provided sources (only its tests and the diagnostics/chart/json headers
are), so the statistics functions, the metrics record, the stage and the
run operations are modelled from the specification, as marked on each
definition; the diagnostics, bar-chart and json code is translated
directly from the corresponding headers.
-/

namespace bencher

namespace stats

/-- Modelled from the spec: `bencher::stats::median` from the missing
`bencher/bencher.hpp` — "sorts a copy; odd length → middle element; even
length → average of the two middle elements; single element → that
element." -/
def median (xs : List ℚ) : ℚ :=
  let sorted := xs.insertionSort (· ≤ ·)
  let n := sorted.length
  if n % 2 = 1 then sorted.getD (n / 2) 0
  else (sorted.getD (n / 2 - 1) 0 + sorted.getD (n / 2) 0) / 2

/-- Modelled from the spec: `bencher::stats::median_absolute_deviation`
from the missing `bencher/bencher.hpp` — "median of the absolute
deviations of each element from the given median." -/
def median_absolute_deviation (xs : List ℚ) (m : ℚ) : ℚ :=
  median (xs.map (fun x => |x - m|))

end stats

/-- Modelled from the spec: the raw per-iteration sample (`event_count` in
the missing `bencher/bencher.hpp`): elapsed seconds, bytes processed, and
four optional hardware counters. -/
structure event_count where
  elapsed : ℚ := 0
  bytes_processed : ℕ := 0
  cycles : Option ℕ := none
  instructions : Option ℕ := none
  branches : Option ℕ := none
  missed_branches : Option ℕ := none
deriving Repr, DecidableEq

/-- Modelled from the spec: the `performance_metrics` record from the
missing `bencher/bencher.hpp` (field set as enumerated in the spec's data
model and as consumed by `diagnostics.hpp`). -/
structure performance_metrics where
  name : String := ""
  bytes_processed : Option ℚ := none
  throughput_mb_per_sec : ℚ := 0
  throughput_median_percentage_deviation : ℚ := 0
  instructions_per_execution : Option ℚ := none
  instructions_percentage_deviation : Option ℚ := none
  instructions_per_cycle : Option ℚ := none
  instructions_per_byte : Option ℚ := none
  branches_per_execution : Option ℚ := none
  branch_misses_per_execution : Option ℚ := none
  cycles_per_execution : Option ℚ := none
  cycles_percentage_deviation : Option ℚ := none
  cycles_per_byte : Option ℚ := none
  frequency_ghz : Option ℚ := none
  total_iteration_count : Option ℕ := none
deriving Repr, DecidableEq

/-- Modelled from the spec: `operator>` on `performance_metrics` from the
missing `bencher/bencher.hpp` — "Comparison between two records is defined
solely on throughput (strict ordering by that one field)". -/
def performance_metrics.gt (a b : performance_metrics) : Bool :=
  decide (b.throughput_mb_per_sec < a.throughput_mb_per_sec)

/-- Modelled from the spec: the `stage` container from the missing
`bencher/bencher.hpp`: configuration (with the spec's defaults), baseline
name, unit labels, and the insertion-ordered results sequence. -/
structure stage where
  name : String := ""
  min_execution_count : ℕ := 30
  max_execution_count : ℕ := 1000
  confidence_interval_threshold : ℚ := 2
  baseline : String := ""
  processed_units_label : String := "Bytes"
  throughput_units_label : String := "MB/s"
  results : List performance_metrics := []
deriving Repr, DecidableEq

/-- Modelled from the spec: one iteration's instantaneous throughput from
the missing `bencher/bencher.hpp` —
`bytes_processed > 0 ? bytes_processed / elapsed_seconds / 1'000'000 : 0`
MB/s, explicit zero when no byte count is produced. -/
def instantaneous_throughput (bytes_processed : ℚ) (elapsed_seconds : ℚ) : ℚ :=
  if 0 < bytes_processed then bytes_processed / elapsed_seconds / 1000000 else 0

/-- Modelled from the spec: the aggregation step of `stage::run` from the
missing `bencher/bencher.hpp` (spec §4.3 steps 1, 3, 4): fold the buffered
samples of one run into a single metrics record.  The hardware-counter
cluster is derived only when counters were captured for every sample. -/
def aggregate_run (name : String) (samples : List event_count) : performance_metrics :=
  let tputs := samples.map (fun s => instantaneous_throughput (s.bytes_processed : ℚ) s.elapsed)
  let tmed := stats.median tputs
  let mad := stats.median_absolute_deviation tputs tmed
  let dev := if 0 < tmed then mad / tmed * 100 else 0
  let bmed := stats.median (samples.map (fun s => (s.bytes_processed : ℚ)))
  let base : performance_metrics :=
    { name := name
      bytes_processed := some bmed
      throughput_mb_per_sec := tmed
      throughput_median_percentage_deviation := dev
      total_iteration_count := some samples.length }
  if samples.all (fun s =>
      s.cycles.isSome && s.instructions.isSome && s.branches.isSome && s.missed_branches.isSome) then
    let imed := stats.median (samples.map (fun s => ((s.instructions.getD 0 : ℕ) : ℚ)))
    let cmed := stats.median (samples.map (fun s => ((s.cycles.getD 0 : ℕ) : ℚ)))
    let brmed := stats.median (samples.map (fun s => ((s.branches.getD 0 : ℕ) : ℚ)))
    let mbmed := stats.median (samples.map (fun s => ((s.missed_branches.getD 0 : ℕ) : ℚ)))
    let nsmed := stats.median (samples.map (fun s => s.elapsed * 1000000000))
    { base with
      instructions_per_execution := some imed
      instructions_percentage_deviation := some
        (stats.median_absolute_deviation
          (samples.map (fun s => ((s.instructions.getD 0 : ℕ) : ℚ))) imed / imed * 100)
      instructions_per_cycle := some (imed / cmed)
      instructions_per_byte := some (imed / bmed)
      branches_per_execution := some brmed
      branch_misses_per_execution := some mbmed
      cycles_per_execution := some cmed
      cycles_percentage_deviation := some
        (stats.median_absolute_deviation
          (samples.map (fun s => ((s.cycles.getD 0 : ℕ) : ℚ))) cmed / cmed * 100)
      cycles_per_byte := some (cmed / bmed)
      frequency_ghz := some (cmed / nsmed) }
  else base

/-- Modelled from the spec: `stage::run(name, body)` from the missing
`bencher/bencher.hpp` — the adaptive loop produces a buffer of measured
samples (abstracted here as the buffer itself); the aggregated record is
appended to the results (preserving call order) and returned. -/
def stage.run (s : stage) (name : String) (samples : List event_count) : stage :=
  { s with results := s.results ++ [aggregate_run name samples] }

/-- Modelled from the spec: `stage::run_with(name, body, params)` from the
missing `bencher/bencher.hpp` — for each parameter value in sequence order,
derive the display name `"{name}/{textual-form-of-param}"` and invoke the
run algorithm on the body applied to that value (abstracted as the sample
buffer that measuring that body produces). -/
def stage.run_with {P : Type} [ToString P] (s : stage) (name : String)
    (samplesOf : P → List event_count) (params : List P) : stage :=
  params.foldl (fun acc p => acc.run (name ++ "/" ++ toString p) (samplesOf p)) s

/-- From `diagnostics.hpp`: rounding used by `std::format("{:.0f}", v)` —
round to nearest, ties to even (IEEE default rounding). -/
def roundHalfEven (q : ℚ) : ℤ :=
  let f := q.floor
  let r := q - f
  if r < 1 / 2 then f
  else if 1 / 2 < r then f + 1
  else if f % 2 = 0 then f else f + 1

/-- Fixed-point rendering `std::format("{:.Nf}", v)` with `prec` digits
after the point.  Negative-zero output ("-0") is not modelled; no claim
depends on label text for negative values. -/
def formatFixed (prec : ℕ) (q : ℚ) : String :=
  let p : ℕ := 10 ^ prec
  let n := roundHalfEven (q * (p : ℚ))
  let sign := if n < 0 then "-" else ""
  let m := n.natAbs
  if prec = 0 then sign ++ toString m
  else
    let fracStr := toString (m % p)
    let pad := String.mk (List.replicate (prec - fracStr.length) '0')
    sign ++ toString (m / p) ++ "." ++ pad ++ fracStr

/-- From `diagnostics.hpp` (`format_bar_chart`): the eight block characters
used for sub-character bar resolution, index 0 being the empty space. -/
def fractional_block (i : ℕ) : Char :=
  [' ', '▏', '▎', '▍', '▌', '▋', '▊', '▉'].getD i ' '

/-- From `diagnostics.hpp` (`format_bar_chart` loop body): one output line
for a name/value pair.  `static_cast<size_t>` of a non-negative double is
modelled as `Int.toNat ∘ Rat.floor` (for negative operands the C++ cast is
undefined behaviour; the claims are stated for non-negative values). -/
def bar_line (max_value : ℚ) (name : String) (v : ℚ) : String :=
  let scaled : ℚ := if max_value = 0 then 0 else v / max_value * 40
  let full_blocks0 : ℕ := scaled.floor.toNat
  let frac_idx0 : ℕ := ((scaled - (full_blocks0 : ℚ)) * 8).floor.toNat
  let full_blocks : ℕ := min full_blocks0 40
  let frac_idx : ℕ := min frac_idx0 7
  let bar : List Char :=
    List.replicate full_blocks '█' ++
      (if full_blocks < 40 ∧ 0 < frac_idx then [fractional_block frac_idx] else []) ++
      List.replicate (40 - (full_blocks + if 0 < frac_idx then 1 else 0)) ' '
  String.mk bar ++ "│" ++ " " ++ name ++ " (" ++ formatFixed 0 v ++ ")" ++ "\n"

/-- From `diagnostics.hpp`: `*std::max_element` over a non-empty vector
(the guard in `format_bar_chart` ensures non-emptiness before the call). -/
def max_element (values : List ℚ) : ℚ :=
  match values with
  | [] => 0
  | x :: xs => xs.foldl max x

/-- From `diagnostics.hpp`: `format_bar_chart(names, values)` — empty
string on size mismatch or empty input, otherwise one bar line per
name/value pair in input order. -/
def format_bar_chart (names : List String) (values : List ℚ) : String :=
  if names.length ≠ values.length ∨ names.isEmpty then ""
  else
    let max_value := max_element values
    String.join ((names.zip values).map (fun nv => bar_line max_value nv.1 nv.2))

/-- From `diagnostics.hpp`: `std::min_element` over the metrics vector with
comparator `a.throughput_mb_per_sec < b.throughput_mb_per_sec` — the first
record of minimal throughput, `none` on an empty vector. -/
def min_element_by_throughput : List performance_metrics → Option performance_metrics
  | [] => none
  | x :: xs => some (xs.foldl (fun acc y =>
      if y.throughput_mb_per_sec < acc.throughput_mb_per_sec then y else acc) x)

/-- Observable outcome of the baseline-comparison section of
`print_results` in `diagnostics.hpp`: the thrown exception, the section
being skipped (comparison disabled or fewer than two records), the
"Unable to determine the baseline metric." branch, or a performed
comparison with its warning flag, chosen baseline, zero-baseline error
flag and the records reported as faster (in order). -/
inductive comparison_outcome where
  | thrown (msg : String)
  | skipped
  | undetermined
  | compared (warning_baseline_not_found : Bool) (baseline : performance_metrics)
      (zero_baseline_error : Bool) (faster : List performance_metrics)
deriving Repr, DecidableEq

/-- From `diagnostics.hpp`: the comparison logic of
`print_results(stage, show_comparison)`.  The per-record metric printing is
pure rendering and is not modelled; this function returns the comparison
outcome.  The C++ loop checks the (constant) baseline throughput each
iteration and breaks with an error on the first iteration when it is zero,
so in that case no record is reported faster. -/
def print_results (s : stage) (show_comparison : Bool) : comparison_outcome :=
  let metrics := s.results
  if show_comparison ∧ 1 < metrics.length then
    if metrics.isEmpty then .thrown "No metrics available for comparison.\n"
    else
      let found :=
        if s.baseline.isEmpty then (min_element_by_throughput metrics, false)
        else
          match metrics.find? (fun m => m.name == s.baseline) with
          | some m => (some m, false)
          | none => (min_element_by_throughput metrics, true)
      match found.1 with
      | none => .undetermined
      | some baseline_metric =>
        if baseline_metric.throughput_mb_per_sec = 0 then
          .compared found.2 baseline_metric true []
        else
          .compared found.2 baseline_metric false
            (metrics.filter (fun m =>
              decide (0 < (m.throughput_mb_per_sec - baseline_metric.throughput_mb_per_sec) /
                baseline_metric.throughput_mb_per_sec * 100)))
  else .skipped

/-- The ordering `std::sort(metrics.begin(), metrics.end(),
std::greater<performance_metrics>{})` sorts into in `to_markdown`:
non-increasing throughput (`operator>` compares solely on throughput). -/
def throughput_descending (a b : performance_metrics) : Prop :=
  b.throughput_mb_per_sec ≤ a.throughput_mb_per_sec

instance : DecidableRel throughput_descending := fun a b =>
  inferInstanceAs (Decidable (b.throughput_mb_per_sec ≤ a.throughput_mb_per_sec))

instance : IsTotal performance_metrics throughput_descending :=
  ⟨fun a b => le_total b.throughput_mb_per_sec a.throughput_mb_per_sec⟩

instance : IsTrans performance_metrics throughput_descending :=
  ⟨fun _ _ _ h1 h2 => le_trans h2 h1⟩

/-- From `diagnostics.hpp` (`to_markdown`): the order in which the records
of the copied results vector are rendered after the descending sort. -/
def to_markdown_order (s : stage) : List performance_metrics :=
  s.results.insertionSort throughput_descending

/-- From `diagnostics.hpp` (`to_markdown` helper `format_metric` on a
floating-point value): precision depends on magnitude. -/
def format_metric_float (label : String) (v : ℚ) : String :=
  if 100 < v then "**" ++ label ++ "**: " ++ formatFixed 0 v ++ "\n"
  else if 10 < v then "**" ++ label ++ "**: " ++ formatFixed 1 v ++ "\n"
  else "**" ++ label ++ "**: " ++ formatFixed 2 v ++ "\n"

/-- From `diagnostics.hpp` (`to_markdown` helper `format_metric` on an
optional floating-point value): "N/A" when absent. -/
def format_metric_opt_float (label : String) (v : Option ℚ) : String :=
  match v with
  | some x => format_metric_float label x
  | none => "**" ++ label ++ "**: N/A\n"

/-- From `diagnostics.hpp` (`to_markdown` helper `format_metric` on the
optional iteration count, a non-floating value printed with `{}`). -/
def format_metric_opt_nat (label : String) (v : Option ℕ) : String :=
  match v with
  | some x => "**" ++ label ++ "**: " ++ toString x ++ "\n"
  | none => "**" ++ label ++ "**: N/A\n"

/-- From `diagnostics.hpp` (`to_markdown` loop body): the Markdown section
for one record. -/
def metric_section (processed_label throughput_label : String)
    (value : performance_metrics) : String :=
  "### Metrics for: " ++ value.name ++ "\n\n" ++
  format_metric_opt_float processed_label value.bytes_processed ++
  format_metric_float throughput_label value.throughput_mb_per_sec ++
  format_metric_float "Throughput MAD (±%)" value.throughput_median_percentage_deviation ++
  format_metric_opt_float "Instructions per Execution" value.instructions_per_execution ++
  format_metric_opt_float "Instructions Percentage Deviation (±%)" value.instructions_percentage_deviation ++
  format_metric_opt_float "Instructions per Cycle" value.instructions_per_cycle ++
  format_metric_opt_float "Instructions per Byte" value.instructions_per_byte ++
  format_metric_opt_float "Branches per Execution" value.branches_per_execution ++
  format_metric_opt_float "Branch Misses per Execution" value.branch_misses_per_execution ++
  format_metric_opt_float "Cycles per Execution" value.cycles_per_execution ++
  format_metric_opt_float "Cycles Percentage Deviation (±%)" value.cycles_percentage_deviation ++
  format_metric_opt_float "Cycles per Byte" value.cycles_per_byte ++
  format_metric_opt_float "Frequency (GHz)" value.frequency_ghz ++
  format_metric_opt_nat "Total Iterations" value.total_iteration_count ++
  "\n---\n\n"

/-- From `diagnostics.hpp`: `to_markdown(stage)` — header, then one section
per record of the copied, descending-sorted results vector.  The stage is
taken by const reference and the sort operates on the copy. -/
def to_markdown (s : stage) : String :=
  let processed_label := s.processed_units_label ++ " Processed"
  let throughput_label := "Throughput (" ++ s.throughput_units_label ++ ")"
  "## Performance Metrics for: " ++ s.name ++ "\n\n" ++
  String.join ((to_markdown_order s).map (metric_section processed_label throughput_label))

/-- Structured JSON value, the target of the machine-readable export in
`json.hpp`. -/
inductive json where
  | null
  | str (s : String)
  | num (q : ℚ)
  | nat (n : ℕ)
  | arr (elems : List json)
  | obj (fields : List (String × json))

/-- Key lookup in a JSON object (first binding wins). -/
def json.lookup (j : json) (key : String) : Option json :=
  match j with
  | .obj fields => (fields.find? (fun f => f.1 == key)).map (fun f => f.2)
  | _ => none

/-- The keys of a JSON object, in serialization order. -/
def json.keys (j : json) : List String :=
  match j with
  | .obj fields => fields.map (fun f => f.1)
  | _ => []

/-- Serialization of an optional floating-point field: glaze writes the
contained value, or null when the optional is empty. -/
def opt_float_to_json : Option ℚ → json
  | some q => .num q
  | none => .null

/-- From `json.hpp`: glaze reflection serializes a `performance_metrics`
aggregate as an object with one member per field, in declaration order. -/
def performance_metrics_to_json (m : performance_metrics) : json :=
  .obj [("name", .str m.name),
        ("bytes_processed", opt_float_to_json m.bytes_processed),
        ("throughput_mb_per_sec", .num m.throughput_mb_per_sec),
        ("throughput_median_percentage_deviation", .num m.throughput_median_percentage_deviation),
        ("instructions_per_execution", opt_float_to_json m.instructions_per_execution),
        ("instructions_percentage_deviation", opt_float_to_json m.instructions_percentage_deviation),
        ("instructions_per_cycle", opt_float_to_json m.instructions_per_cycle),
        ("instructions_per_byte", opt_float_to_json m.instructions_per_byte),
        ("branches_per_execution", opt_float_to_json m.branches_per_execution),
        ("branch_misses_per_execution", opt_float_to_json m.branch_misses_per_execution),
        ("cycles_per_execution", opt_float_to_json m.cycles_per_execution),
        ("cycles_percentage_deviation", opt_float_to_json m.cycles_percentage_deviation),
        ("cycles_per_byte", opt_float_to_json m.cycles_per_byte),
        ("frequency_ghz", opt_float_to_json m.frequency_ghz),
        ("total_iteration_count",
          match m.total_iteration_count with
          | some n => json.nat n
          | none => json.null)]

/-- From `json.hpp`: the intermediate aggregate `stage_result` built by
`to_json` — exactly the stage's name and its results vector. -/
structure stage_result where
  name : String
  results : List performance_metrics

/-- From `json.hpp`: `to_json(stage)` builds a `stage_result` from the
const stage and serializes it; glaze reflection yields the object schema
`{name, results: [...]}` with the fields in declaration order. -/
def to_json (s : stage) : json :=
  let output : stage_result := ⟨s.name, s.results⟩
  json.obj [("name", json.str output.name),
            ("results", json.arr (output.results.map performance_metrics_to_json))]

end bencher

/-- From `bar_chart.hpp`: the `RGB` components (C++ `int`). -/
structure RGB where
  r : ℤ := 0
  g : ℤ := 0
  b : ℤ := 0
deriving Repr, DecidableEq

/-- Value of one hexadecimal digit character, as accepted by
`std::from_chars(..., 16)`. -/
def hexDigitValue (c : Char) : Option ℕ :=
  if '0' ≤ c ∧ c ≤ '9' then some (c.toNat - '0'.toNat)
  else if 'a' ≤ c ∧ c ≤ 'f' then some (c.toNat - 'a'.toNat + 10)
  else if 'A' ≤ c ∧ c ≤ 'F' then some (c.toNat - 'A'.toNat + 10)
  else none

/-- Model of `std::from_chars(first, last, value, 16)` with
`unsigned int value` (32-bit): parse the maximal leading run of hex
digits; error (`none`) when that run is empty (`errc::invalid_argument`)
or its value does not fit in 32 bits (`errc::result_out_of_range`) — the
caller in `hex_to_rgb` treats both error codes identically. -/
def from_chars_hex (cs : List Char) : Option ℕ :=
  let run := cs.takeWhile (fun c => (hexDigitValue c).isSome)
  if run.isEmpty then none
  else
    let v := run.foldl (fun acc c => acc * 16 + (hexDigitValue c).getD 0) 0
    if v < 2 ^ 32 then some v else none

/-- From `bar_chart.hpp`: `hex_to_rgb(hex)` — the guard
`!hex.empty() && hex[0] == '#'` is `data.head? = some '#'`; then the rest
of the string (`data + 1` to `data + size`, i.e. `data.tail`) is parsed
with `from_chars` base 16 and the three byte components are extracted by
shift-and-mask (`(value >> 16) & 0xFF` = `value / 65536 % 256`, and so
on); both failure branches throw `std::invalid_argument`, modelled as
`Except.error` with the exception message. -/
def hex_to_rgb (hex : String) : Except String RGB :=
  if hex.data.head? = some '#' then
    match from_chars_hex hex.data.tail with
    | some value =>
      .ok ⟨((value / 65536) % 256 : ℕ), ((value / 256) % 256 : ℕ), ((value % 256 : ℕ) : ℤ)⟩
    | none => .error "Invalid hex color format"
  else .error "Hex color must start with '#'"

/-- Uppercase hexadecimal digit character for a value below 16, as
produced by `std::format("{:02X}", ...)`. -/
def toUpperHexDigit (n : ℕ) : Char :=
  if n < 10 then Char.ofNat ('0'.toNat + n) else Char.ofNat ('A'.toNat + n - 10)

/-- The two digits of `std::format("{:02X}", n)` for `n < 256` (in
`rgb_to_hex` the argument is always masked with `& 0xFF` first, so the
width-2 form is exact). -/
def hex2chars (n : ℕ) : List Char := [toUpperHexDigit (n / 16), toUpperHexDigit (n % 16)]

/-- From `bar_chart.hpp`: `rgb_to_hex(color)` =
`std::format("#{:02X}{:02X}{:02X}", r & 0xFF, g & 0xFF, b & 0xFF)`; for a
C++ `int` on two's complement, `x & 0xFF` is the non-negative residue
`x mod 256`, i.e. `Int.emod x 256`. -/
def rgb_to_hex (color : RGB) : String :=
  String.mk ('#' :: (hex2chars (color.r.emod 256).toNat ++
    hex2chars (color.g.emod 256).toNat ++ hex2chars (color.b.emod 256).toNat))

open bencher

lemma getD_zero_of_all_zero (l : List ℚ) (h : ∀ x ∈ l, x = 0) (i : ℕ) :
    l.getD i 0 = 0 := by
  rcases hg : l[i]? with _ | x
  · simp [List.getD_eq_getElem?_getD, hg]
  · have hx : x ∈ l := List.getElem?_mem hg
    simp [List.getD_eq_getElem?_getD, hg, h x hx]

lemma median_all_zero (xs : List ℚ) (h : ∀ x ∈ xs, x = 0) :
    bencher.stats.median xs = 0 := by
  have hall : ∀ x ∈ xs.insertionSort (· ≤ ·), x = 0 := fun x hx =>
    h x ((List.mem_insertionSort _).mp hx)
  have h1 : ∀ i, (xs.insertionSort (· ≤ ·)).getD i 0 = 0 :=
    getD_zero_of_all_zero _ hall
  simp only [bencher.stats.median, h1]
  split <;> norm_num

lemma aggregate_run_name (nm : String) (samples : List event_count) :
    (aggregate_run nm samples).name = nm := by
  unfold aggregate_run
  split <;> rfl

/-- Claim C5: for every finite non-empty sequence of reals, `median` sorts a
copy (the caller's sequence is unchanged — the function is permutation
invariant and pure), returns the middle element for odd length, the average
of the two middle elements for even length, and the sole element for a
singleton; in particular `median {5,1,3,2,4} = 3`, `median {1,2,3,4} = 2.5`
and `median {7} = 7`. -/
theorem C5_median_spec :
    bencher.stats.median [5, 1, 3, 2, 4] = 3 ∧
    bencher.stats.median [1, 2, 3, 4] = 5 / 2 ∧
    bencher.stats.median [7] = 7 ∧
    (∀ a : ℚ, bencher.stats.median [a] = a) ∧
    (∀ xs ys : List ℚ, xs.Perm ys →
      bencher.stats.median xs = bencher.stats.median ys) := by
  refine ⟨?_, ?_, ?_, ?_, ?_⟩
  · norm_num [bencher.stats.median, List.insertionSort, List.orderedInsert]
  · norm_num [bencher.stats.median, List.insertionSort, List.orderedInsert]
  · norm_num [bencher.stats.median, List.insertionSort, List.orderedInsert]
  · intro a
    simp [bencher.stats.median, List.insertionSort, List.orderedInsert]
  · intro xs ys hperm
    haveI : IsAntisymm ℚ (· ≤ ·) := ⟨fun a b hab hba => le_antisymm hab hba⟩
    have hsorteq : xs.insertionSort (· ≤ ·) = ys.insertionSort (· ≤ ·) :=
      List.eq_of_perm_of_sorted
        ((List.perm_insertionSort _ xs).trans
          (hperm.trans (List.perm_insertionSort _ ys).symm))
        (List.sorted_insertionSort _ xs)
        (List.sorted_insertionSort _ ys)
    simp only [bencher.stats.median, hsorteq]

/-- Claim C1: for every Stage whose results sequence is empty, presenting it
to the baseline-comparison report (`print_results` with comparison enabled)
produces the distinguishable comparison-unavailable outcome (the comparison
section is skipped: with fewer than two records the guard
`show_comparison && metrics.size() > 1` fails, so the dead
`throw std::runtime_error` branch is unreachable) and does not crash or
throw. -/
theorem C1_empty_results_comparison_unavailable (s : stage) (h : s.results = []) :
    print_results s true = comparison_outcome.skipped ∧
    ∀ msg, print_results s true ≠ comparison_outcome.thrown msg := by
  have hskip : print_results s true = comparison_outcome.skipped := by
    simp [print_results, h]
  exact ⟨hskip, fun msg hc => by rw [hskip] at hc; exact absurd hc (by simp)⟩

theorem C1_witness :
    print_results { name := "empty" } true = comparison_outcome.skipped :=
  (C1_empty_results_comparison_unavailable { name := "empty" } rfl).1

/-- Claim C2: an iteration's instantaneous throughput is the explicit value
`bytes_processed > 0 ? bytes_processed / elapsed_seconds / 1'000'000 : 0`
(in particular it is an explicit zero — and not an undefined 0/0 — whenever
the byte count is zero, for every elapsed time including zero), and a run
whose body yields no byte count (every sample has zero bytes) aggregates to
a record with `bytes_processed = 0` and `throughput_mb_per_sec = 0`
regardless of the measured elapsed times. -/
theorem C2_zero_bytes_zero_throughput :
    (∀ e : ℚ, instantaneous_throughput 0 e = 0) ∧
    (∀ bp e : ℚ, 0 < bp → instantaneous_throughput bp e = bp / e / 1000000) ∧
    (∀ (nm : String) (samples : List event_count), samples ≠ [] →
      (∀ sm ∈ samples, sm.bytes_processed = 0) →
      (aggregate_run nm samples).bytes_processed = some 0 ∧
      (aggregate_run nm samples).throughput_mb_per_sec = 0) := by
  refine ⟨?_, ?_, ?_⟩
  · intro e; simp [instantaneous_throughput]
  · intro bp e h; simp [instantaneous_throughput, h]
  · intro nm samples hne hzero
    have hb : ∀ x ∈ samples.map (fun sm => ((sm.bytes_processed : ℕ) : ℚ)), x = 0 := by
      intro x hx
      obtain ⟨sm, hsm, rfl⟩ := List.mem_map.mp hx
      simp [hzero sm hsm]
    have ht : ∀ x ∈ samples.map
        (fun sm => instantaneous_throughput (sm.bytes_processed : ℚ) sm.elapsed), x = 0 := by
      intro x hx
      obtain ⟨sm, hsm, rfl⟩ := List.mem_map.mp hx
      simp [instantaneous_throughput, hzero sm hsm]
    have hbm := median_all_zero _ hb
    have htm := median_all_zero _ ht
    unfold aggregate_run
    split <;> simp [htm, hbm]

theorem C2_witness :
    (aggregate_run "void_bench"
        [{ elapsed := 5 }, { elapsed := 0 }, { elapsed := 3 }]).bytes_processed = some 0 ∧
    (aggregate_run "void_bench"
        [{ elapsed := 5 }, { elapsed := 0 }, { elapsed := 3 }]).throughput_mb_per_sec = 0 :=
  C2_zero_bytes_zero_throughput.2.2 "void_bench" _ (by decide) (by decide)

/-- Claim C3: comparison between two records is a strict ordering defined
solely on `throughput_mb_per_sec`: `a > b` holds exactly when a's
throughput exceeds b's; equal throughputs make neither side greater;
the order is asymmetric and transitive; and it depends on no other field
(records with equal throughput compare identically against anything). -/
theorem C3_comparison_solely_throughput (a b : performance_metrics) :
    (a.gt b = true ↔ b.throughput_mb_per_sec < a.throughput_mb_per_sec) ∧
    (a.throughput_mb_per_sec = b.throughput_mb_per_sec →
      a.gt b = false ∧ b.gt a = false) ∧
    (a.gt b = true → b.gt a = false) ∧
    (∀ c, a.gt b = true → b.gt c = true → a.gt c = true) ∧
    (∀ c, a.throughput_mb_per_sec = b.throughput_mb_per_sec →
      a.gt c = b.gt c ∧ c.gt a = c.gt b) := by
  refine ⟨by simp [performance_metrics.gt], fun h => ⟨?_, ?_⟩, ?_, fun c h1 h2 => ?_, fun c h => ⟨?_, ?_⟩⟩
  · simp [performance_metrics.gt, h]
  · simp [performance_metrics.gt, h]
  · intro h
    simp only [performance_metrics.gt, decide_eq_true_eq] at h
    simp [performance_metrics.gt, le_of_lt h]
  · simp only [performance_metrics.gt, decide_eq_true_eq] at h1 h2 ⊢
    exact lt_trans h2 h1
  · simp [performance_metrics.gt, h]
  · simp [performance_metrics.gt, h]

theorem C3_witness :
    ({ throughput_mb_per_sec := 100 } : performance_metrics).gt
        { throughput_mb_per_sec := 100 } = false ∧
    ({ throughput_mb_per_sec := 100 } : performance_metrics).gt
        { throughput_mb_per_sec := 100 } = false :=
  (C3_comparison_solely_throughput _ _).2.1 rfl

/-- Claim C4: for every name, parameterized body and parameter sequence,
`run_with` appends exactly one record per parameter value, in parameter
order, each named `"{name}/{textual-form-of-param}"`; duplicate parameter
values are not deduplicated (the map over the parameter list keeps them). -/
theorem C4_run_with_appends_per_param {P : Type} [ToString P] (s : stage) (nm : String)
    (samplesOf : P → List event_count) (params : List P) :
    (s.run_with nm samplesOf params).results =
      s.results ++ params.map (fun p => aggregate_run (nm ++ "/" ++ toString p) (samplesOf p)) ∧
    (s.run_with nm samplesOf params).results.map performance_metrics.name =
      s.results.map performance_metrics.name ++
        params.map (fun p => nm ++ "/" ++ toString p) := by
  have hmain : ∀ (ps : List P) (st : stage), (st.run_with nm samplesOf ps).results =
      st.results ++ ps.map (fun p => aggregate_run (nm ++ "/" ++ toString p) (samplesOf p)) := by
    intro ps
    induction ps with
    | nil => intro st; simp [stage.run_with]
    | cons p ps ih =>
      intro st
      have hstep : st.run_with nm samplesOf (p :: ps) =
          (st.run (nm ++ "/" ++ toString p) (samplesOf p)).run_with nm samplesOf ps := by
        simp [stage.run_with]
      rw [hstep, ih]
      simp [stage.run]
  refine ⟨hmain params s, ?_⟩
  rw [hmain params s]
  simp [List.map_map, Function.comp, aggregate_run_name]

/-- Claim C6: `to_markdown` renders the records ranked in non-increasing
(descending) order of `throughput_mb_per_sec`, operating on a copy of the
results: the rendered sequence is a permutation of the Stage's results
sequence, which itself is left unchanged (the model is pure; the C++ code
sorts a by-value copy of `stage.results`). -/
theorem C6_to_markdown_descending (s : stage) :
    (to_markdown_order s).Perm s.results ∧
    List.Sorted (fun a b : performance_metrics =>
      b.throughput_mb_per_sec ≤ a.throughput_mb_per_sec) (to_markdown_order s) ∧
    to_markdown s = "## Performance Metrics for: " ++ s.name ++ "\n\n" ++
      String.join ((to_markdown_order s).map
        (metric_section (s.processed_units_label ++ " Processed")
          ("Throughput (" ++ s.throughput_units_label ++ ")"))) := by
  refine ⟨List.perm_insertionSort _ _, ?_, rfl⟩
  exact List.sorted_insertionSort throughput_descending s.results

/-- Claim C7: the machine-readable export `to_json` serializes exactly the
schema `{name, results: [...]}`: an object whose keys are precisely
`name` and `results`, carrying the Stage's name and its results sequence
in insertion order (one serialized record per result, in order), without
modifying the Stage (the model is pure; the C++ code copies the name and
vector into a `stage_result` aggregate). -/
theorem C7_to_json_schema (s : stage) :
    (to_json s).keys = ["name", "results"] ∧
    (to_json s).lookup "name" = some (json.str s.name) ∧
    (to_json s).lookup "results" =
      some (json.arr (s.results.map performance_metrics_to_json)) := by
  refine ⟨rfl, ?_, ?_⟩ <;> simp [to_json, json.lookup]

theorem C5_witness :
    bencher.stats.median [1, 2] = bencher.stats.median [2, 1] :=
  C5_median_spec.2.2.2.2 [1, 2] [2, 1] (List.Perm.swap 2 1 [])

lemma foldl_min_throughput_spec (x : performance_metrics) (xs : List performance_metrics) :
    (xs.foldl (fun acc y =>
      if y.throughput_mb_per_sec < acc.throughput_mb_per_sec then y else acc) x) ∈ x :: xs ∧
    ∀ y ∈ x :: xs,
      (xs.foldl (fun acc y =>
        if y.throughput_mb_per_sec < acc.throughput_mb_per_sec then y else acc)
          x).throughput_mb_per_sec ≤ y.throughput_mb_per_sec := by
  induction xs generalizing x with
  | nil => simp
  | cons z zs ih =>
    simp only [List.foldl_cons]
    obtain ⟨hmem, hmin⟩ :=
      ih (if z.throughput_mb_per_sec < x.throughput_mb_per_sec then z else x)
    have hax : (if z.throughput_mb_per_sec < x.throughput_mb_per_sec then z else x) = z ∨
        (if z.throughput_mb_per_sec < x.throughput_mb_per_sec then z else x) = x := by
      split <;> simp
    have halex : (if z.throughput_mb_per_sec < x.throughput_mb_per_sec then z
        else x).throughput_mb_per_sec ≤ x.throughput_mb_per_sec := by
      split
      · exact le_of_lt (by assumption)
      · exact le_refl _
    have halez : (if z.throughput_mb_per_sec < x.throughput_mb_per_sec then z
        else x).throughput_mb_per_sec ≤ z.throughput_mb_per_sec := by
      split
      · exact le_refl _
      · exact le_of_not_lt (by assumption)
    constructor
    · rcases List.mem_cons.mp hmem with heq | hin
      · rw [heq]
        rcases hax with h | h <;> rw [h] <;> simp
      · simp [List.mem_cons_of_mem, hin]
    · intro y hy
      have hmina := hmin _ (List.mem_cons_self _ _)
      rcases List.mem_cons.mp hy with rfl | hy2
      · exact le_trans hmina halex
      rcases List.mem_cons.mp hy2 with rfl | hy3
      · exact le_trans hmina halez
      · exact hmin y (List.mem_cons_of_mem _ hy3)

lemma min_element_by_throughput_spec (metrics : List performance_metrics)
    (b : performance_metrics) (h : min_element_by_throughput metrics = some b) :
    b ∈ metrics ∧ ∀ m ∈ metrics, b.throughput_mb_per_sec ≤ m.throughput_mb_per_sec := by
  cases metrics with
  | nil => simp [min_element_by_throughput] at h
  | cons x xs =>
    simp only [min_element_by_throughput, Option.some.injEq] at h
    rw [← h]
    exact foldl_min_throughput_spec x xs

/-- Claim C8: for every Stage with at least two results (and the engine
invariant of non-negative throughputs) presented to `print_results` with
comparison enabled: an empty baseline name selects the record of minimum
throughput as baseline (no warning); a baseline name matching no record
emits the warning and falls back to the minimum-throughput record rather
than failing; and only records with throughput strictly greater than the
baseline's are reported as faster. -/
theorem C8_baseline_fallback_and_faster (s : stage)
    (h2 : 2 ≤ s.results.length)
    (hnn : ∀ m ∈ s.results, 0 ≤ m.throughput_mb_per_sec) :
    (s.baseline = "" → ∃ b zerr faster,
      print_results s true = comparison_outcome.compared false b zerr faster ∧
      b ∈ s.results ∧
      ∀ m ∈ s.results, b.throughput_mb_per_sec ≤ m.throughput_mb_per_sec) ∧
    ((s.baseline ≠ "" ∧ ∀ m ∈ s.results, m.name ≠ s.baseline) → ∃ b zerr faster,
      print_results s true = comparison_outcome.compared true b zerr faster ∧
      b ∈ s.results ∧
      ∀ m ∈ s.results, b.throughput_mb_per_sec ≤ m.throughput_mb_per_sec) ∧
    (∀ w b zerr faster,
      print_results s true = comparison_outcome.compared w b zerr faster →
      ∀ m ∈ faster, b.throughput_mb_per_sec < m.throughput_mb_per_sec) := by
  have hlen : 1 < s.results.length := h2
  have hemp : s.results.isEmpty = false := by
    cases hr : s.results with
    | nil => rw [hr] at hlen; simp at hlen
    | cons x xs => rfl
  obtain ⟨bmin, hbmin⟩ : ∃ bm, min_element_by_throughput s.results = some bm := by
    cases hr : s.results with
    | nil => rw [hr] at hlen; simp at hlen
    | cons x xs => exact ⟨_, rfl⟩
  obtain ⟨hbmem, hbmin_le⟩ := min_element_by_throughput_spec _ _ hbmin
  have hfaster : ∀ (b : performance_metrics), b ∈ s.results →
      b.throughput_mb_per_sec ≠ 0 →
      ∀ m ∈ s.results.filter (fun m =>
        decide (0 < (m.throughput_mb_per_sec - b.throughput_mb_per_sec) /
          b.throughput_mb_per_sec * 100)),
      b.throughput_mb_per_sec < m.throughput_mb_per_sec := by
    intro b hbmem2 hb0 m hm
    have hbpos : 0 < b.throughput_mb_per_sec := lt_of_le_of_ne (hnn b hbmem2) (Ne.symm hb0)
    obtain ⟨hmmem, hp⟩ := List.mem_filter.mp hm
    have hp2 : 0 < (m.throughput_mb_per_sec - b.throughput_mb_per_sec) /
        b.throughput_mb_per_sec * 100 := of_decide_eq_true hp
    have hp3 : 0 < (m.throughput_mb_per_sec - b.throughput_mb_per_sec) /
        b.throughput_mb_per_sec := by linarith
    rcases div_pos_iff.mp hp3 with ⟨hnum, _⟩ | ⟨_, hden⟩
    · linarith
    · linarith
  refine ⟨?_, ?_, ?_⟩
  · intro hbase
    have hbet : s.baseline.isEmpty = true := by rw [hbase]; rfl
    have heq : print_results s true =
        (if bmin.throughput_mb_per_sec = 0 then
          comparison_outcome.compared false bmin true []
        else comparison_outcome.compared false bmin false
          (s.results.filter (fun m =>
            decide (0 < (m.throughput_mb_per_sec - bmin.throughput_mb_per_sec) /
              bmin.throughput_mb_per_sec * 100)))) := by
      simp [print_results, hlen, hemp, hbet, hbmin]
    by_cases hb0 : bmin.throughput_mb_per_sec = 0
    · exact ⟨bmin, true, [], by rw [heq, if_pos hb0], hbmem, hbmin_le⟩
    · exact ⟨bmin, false,
        s.results.filter (fun m =>
          decide (0 < (m.throughput_mb_per_sec - bmin.throughput_mb_per_sec) /
            bmin.throughput_mb_per_sec * 100)),
        by rw [heq, if_neg hb0], hbmem, hbmin_le⟩
  · rintro ⟨hbne, hnomatch⟩
    have hfind : s.results.find? (fun m => m.name == s.baseline) = none := by
      apply List.find?_eq_none.mpr
      intro m hm
      simp [hnomatch m hm]
    have hbees : s.baseline.isEmpty = false := by
      rw [← Bool.not_eq_true]
      intro habs
      exact hbne ((String.isEmpty_iff s.baseline).mp habs)
    have heq : print_results s true =
        (if bmin.throughput_mb_per_sec = 0 then
          comparison_outcome.compared true bmin true []
        else comparison_outcome.compared true bmin false
          (s.results.filter (fun m =>
            decide (0 < (m.throughput_mb_per_sec - bmin.throughput_mb_per_sec) /
              bmin.throughput_mb_per_sec * 100)))) := by
      simp [print_results, hlen, hemp, hbees, hfind, hbmin]
    by_cases hb0 : bmin.throughput_mb_per_sec = 0
    · exact ⟨bmin, true, [], by rw [heq, if_pos hb0], hbmem, hbmin_le⟩
    · exact ⟨bmin, false,
        s.results.filter (fun m =>
          decide (0 < (m.throughput_mb_per_sec - bmin.throughput_mb_per_sec) /
            bmin.throughput_mb_per_sec * 100)),
        by rw [heq, if_neg hb0], hbmem, hbmin_le⟩
  · intro w b zerr faster heq m hm
    by_cases hbees : s.baseline.isEmpty = true
    · have heq2 : print_results s true =
          (if bmin.throughput_mb_per_sec = 0 then
            comparison_outcome.compared false bmin true []
          else comparison_outcome.compared false bmin false
            (s.results.filter (fun m =>
              decide (0 < (m.throughput_mb_per_sec - bmin.throughput_mb_per_sec) /
                bmin.throughput_mb_per_sec * 100)))) := by
        simp [print_results, hlen, hemp, hbees, hbmin]
      rw [heq2] at heq
      by_cases hb0 : bmin.throughput_mb_per_sec = 0
      · rw [if_pos hb0] at heq
        obtain ⟨-, hb, -, hf⟩ := comparison_outcome.compared.inj heq
        rw [← hf] at hm
        simp at hm
      · rw [if_neg hb0] at heq
        obtain ⟨-, hb, -, hf⟩ := comparison_outcome.compared.inj heq
        rw [← hb]
        rw [← hf] at hm
        exact hfaster bmin hbmem hb0 m hm
    · cases hfind : s.results.find? (fun m => m.name == s.baseline) with
      | some b0 =>
        have hb0mem : b0 ∈ s.results := List.mem_of_find?_eq_some hfind
        have heq2 : print_results s true =
            (if b0.throughput_mb_per_sec = 0 then
              comparison_outcome.compared false b0 true []
            else comparison_outcome.compared false b0 false
              (s.results.filter (fun m =>
                decide (0 < (m.throughput_mb_per_sec - b0.throughput_mb_per_sec) /
                  b0.throughput_mb_per_sec * 100)))) := by
          simp [print_results, hlen, hemp, hbees, hfind]
        rw [heq2] at heq
        by_cases hb0 : b0.throughput_mb_per_sec = 0
        · rw [if_pos hb0] at heq
          obtain ⟨-, hb, -, hf⟩ := comparison_outcome.compared.inj heq
          rw [← hf] at hm
          simp at hm
        · rw [if_neg hb0] at heq
          obtain ⟨-, hb, -, hf⟩ := comparison_outcome.compared.inj heq
          rw [← hb]
          rw [← hf] at hm
          exact hfaster b0 hb0mem hb0 m hm
      | none =>
        have heq2 : print_results s true =
            (if bmin.throughput_mb_per_sec = 0 then
              comparison_outcome.compared true bmin true []
            else comparison_outcome.compared true bmin false
              (s.results.filter (fun m =>
                decide (0 < (m.throughput_mb_per_sec - bmin.throughput_mb_per_sec) /
                  bmin.throughput_mb_per_sec * 100)))) := by
          simp [print_results, hlen, hemp, hbees, hfind, hbmin]
        rw [heq2] at heq
        by_cases hb0 : bmin.throughput_mb_per_sec = 0
        · rw [if_pos hb0] at heq
          obtain ⟨-, hb, -, hf⟩ := comparison_outcome.compared.inj heq
          rw [← hf] at hm
          simp at hm
        · rw [if_neg hb0] at heq
          obtain ⟨-, hb, -, hf⟩ := comparison_outcome.compared.inj heq
          rw [← hb]
          rw [← hf] at hm
          exact hfaster bmin hbmem hb0 m hm

theorem C8_witness :
    ({ name := "alpha", throughput_mb_per_sec := 50 } : performance_metrics).throughput_mb_per_sec <
      ({ name := "beta", throughput_mb_per_sec := 150 } : performance_metrics).throughput_mb_per_sec := by
  have h := C8_baseline_fallback_and_faster
    { name := "w", results := [{ name := "alpha", throughput_mb_per_sec := 50 },
      { name := "beta", throughput_mb_per_sec := 150 }] }
    (by norm_num)
    (by intro m hm; simp at hm; rcases hm with rfl | rfl <;> norm_num)
  refine h.2.2 false { name := "alpha", throughput_mb_per_sec := 50 } false
    [{ name := "beta", throughput_mb_per_sec := 150 }] ?_
    { name := "beta", throughput_mb_per_sec := 150 } (by simp)
  have he : ("".isEmpty) = true := rfl
  norm_num [print_results, min_element_by_throughput, List.filter, List.find?, List.foldl, he]

lemma hexDigitValue_toUpperHexDigit (k : ℕ) (h : k < 16) :
    hexDigitValue (toUpperHexDigit k) = some k := by
  interval_cases k <;> decide

lemma from_chars_hex_six (a b c d e f : ℕ)
    (ha : a < 16) (hb : b < 16) (hc : c < 16) (hd : d < 16) (he : e < 16) (hf : f < 16) :
    from_chars_hex [toUpperHexDigit a, toUpperHexDigit b, toUpperHexDigit c,
      toUpperHexDigit d, toUpperHexDigit e, toUpperHexDigit f] =
      some (((((a * 16 + b) * 16 + c) * 16 + d) * 16 + e) * 16 + f) := by
  have h1 := hexDigitValue_toUpperHexDigit a ha
  have h2 := hexDigitValue_toUpperHexDigit b hb
  have h3 := hexDigitValue_toUpperHexDigit c hc
  have h4 := hexDigitValue_toUpperHexDigit d hd
  have h5 := hexDigitValue_toUpperHexDigit e he
  have h6 := hexDigitValue_toUpperHexDigit f hf
  simp [from_chars_hex, List.takeWhile, h1, h2, h3, h4, h5, h6]
  omega


/-- Claim C9: for every RGB value with r, g, b components each in [0, 255],
the round-trip `hex_to_rgb (rgb_to_hex c)` returns `c` unchanged; and
`hex_to_rgb` throws `std::invalid_argument` exactly when its input does not
start with '#' or the characters after '#' do not parse under
`std::from_chars` base 16 (no leading hexadecimal digit, or a digit run
whose value does not fit the 32-bit `unsigned int`), the parse semantics
being `from_chars_hex`. -/
theorem C9_hex_roundtrip_and_errors :
    (∀ c : RGB, 0 ≤ c.r → c.r ≤ 255 → 0 ≤ c.g → c.g ≤ 255 → 0 ≤ c.b → c.b ≤ 255 →
      hex_to_rgb (rgb_to_hex c) = Except.ok c) ∧
    (∀ s : String, (∃ c, hex_to_rgb s = Except.ok c) ↔
      (s.data.head? = some '#' ∧ (from_chars_hex s.data.tail).isSome)) := by
  constructor
  · rintro ⟨r, g, b⟩ h0r h1r h0g h1g h0b h1b
    simp only at h0r h1r h0g h1g h0b h1b
    have her : r.emod 256 = r := Int.emod_eq_of_lt h0r (by omega)
    have heg : g.emod 256 = g := Int.emod_eq_of_lt h0g (by omega)
    have heb : b.emod 256 = b := Int.emod_eq_of_lt h0b (by omega)
    have hdata : (rgb_to_hex ⟨r, g, b⟩).data =
        '#' :: [toUpperHexDigit (r.toNat / 16), toUpperHexDigit (r.toNat % 16),
          toUpperHexDigit (g.toNat / 16), toUpperHexDigit (g.toNat % 16),
          toUpperHexDigit (b.toNat / 16), toUpperHexDigit (b.toNat % 16)] := by
      simp [rgb_to_hex, hex2chars, her, heg, heb]
    simp only [hex_to_rgb, hdata, List.head?, List.tail]
    rw [if_pos trivial]
    rw [from_chars_hex_six _ _ _ _ _ _ (by omega) (by omega) (by omega)
      (by omega) (by omega) (by omega)]
    simp only [RGB.mk.injEq, Except.ok.injEq]
    refine ⟨?_, ?_, ?_⟩ <;> omega
  · intro s
    by_cases hh : s.data.head? = some '#'
    · simp only [hex_to_rgb, if_pos hh]
      cases hfc : from_chars_hex s.data.tail <;> simp [hfc, hh]
    · simp [hex_to_rgb, hh]

theorem C9_witness :
    hex_to_rgb (rgb_to_hex ⟨255, 128, 64⟩) = Except.ok ⟨255, 128, 64⟩ :=
  C9_hex_roundtrip_and_errors.1 ⟨255, 128, 64⟩ (by norm_num) (by norm_num)
    (by norm_num) (by norm_num) (by norm_num) (by norm_num)

lemma data_foldl_append (L : List String) (a : String) :
    (L.foldl (· ++ ·) a).data = a.data ++ (L.map String.data).flatten := by
  induction L generalizing a with
  | nil => simp
  | cons x xs ih => simp [ih, String.data_append, List.append_assoc]

lemma data_join (L : List String) :
    (String.join L).data = (L.map String.data).flatten := by
  have h := data_foldl_append L ""
  have hemp : ("" : String).data = [] := rfl
  rw [hemp, List.nil_append] at h
  exact h

lemma bar_line_ends_newline (m : ℚ) (n : String) (v : ℚ) :
    (bar_line m n v).data.getLast? = some '\n' := by
  have hnl : ("\n" : String).data = ['\n'] := rfl
  simp only [bar_line, String.data_append, hnl]
  exact List.getLast?_concat _

/-- Claim C10: `format_bar_chart` returns the empty string exactly when the
names and values sequences have different lengths or are empty; for every
equal-length non-empty input it returns the concatenation, in input order,
of one newline-terminated line per name/value pair; and when the maximum
value is 0 every bar is rendered with zero blocks — forty padding spaces
and no block character — because the guarded scale computation yields 0
instead of dividing by zero. -/
theorem C10_format_bar_chart (names : List String) (values : List ℚ) :
    (format_bar_chart names values = "" ↔
      names.length ≠ values.length ∨ names = []) ∧
    (names.length = values.length → names ≠ [] →
      format_bar_chart names values =
        String.join ((names.zip values).map
          (fun nv => bar_line (max_element values) nv.1 nv.2))) ∧
    (∀ m n v, (bar_line m n v).data.getLast? = some '\n') ∧
    (∀ n v, bar_line 0 n v =
      String.mk (List.replicate 40 ' ') ++ "│" ++ " " ++ n ++ " (" ++
        formatFixed 0 v ++ ")" ++ "\n") := by
  refine ⟨⟨?_, ?_⟩, ?_, ?_, ?_⟩
  · intro hres
    by_contra hcon
    push_neg at hcon
    obtain ⟨hlen, hne⟩ := hcon
    obtain ⟨x, xs, rfl⟩ : ∃ x xs, names = x :: xs := by
      cases names with
      | nil => exact absurd rfl hne
      | cons x xs => exact ⟨x, xs, rfl⟩
    obtain ⟨y, ys, rfl⟩ : ∃ y ys, values = y :: ys := by
      cases values with
      | nil => simp at hlen
      | cons y ys => exact ⟨y, ys, rfl⟩
    have heq : format_bar_chart (x :: xs) (y :: ys) =
        String.join (((x :: xs).zip (y :: ys)).map
          (fun nv => bar_line (max_element (y :: ys)) nv.1 nv.2)) := by
      simp [format_bar_chart, hlen]
    rw [heq] at hres
    have hdata := congrArg String.data hres
    rw [data_join] at hdata
    simp only [List.zip_cons_cons, List.map_cons, List.flatten] at hdata
    have hnil := List.append_eq_nil.mp hdata
    have hlast := bar_line_ends_newline (max_element (y :: ys)) x y
    rw [hnil.1] at hlast
    simp at hlast
  · intro h
    rcases h with h | h
    · simp [format_bar_chart, h]
    · simp [format_bar_chart, h]
  · intro h1 h2
    have hne : names.isEmpty = false := by
      cases names with
      | nil => exact absurd rfl h2
      | cons x xs => rfl
    simp [format_bar_chart, h1, hne]
  · exact bar_line_ends_newline
  · intro n v
    have hf0 : ((0 : ℚ)).floor = 0 := rfl
    norm_num [bar_line, hf0]

theorem C10_witness :
    format_bar_chart ["Fast", "Slow"] [100, 50] =
      String.join ((["Fast", "Slow"].zip [100, 50]).map
        (fun nv => bar_line (max_element [100, 50]) nv.1 nv.2)) :=
  (C10_format_bar_chart ["Fast", "Slow"] [100, 50]).2.1 rfl (by simp)
